import Mathlib

/-!
Shallow embedding of the WhatsApp AI assistant core (src/app) and proofs about
its conversation-state, history and attachment handling logic.

The embedding mirrors, definition by definition:
  - `ConversationDBManager.get_history`            (src/app/db_manager.py)
  - `GeminiLLMClient._format_db_history_for_genai` (src/app/llm_client.py)
  - `GeminiLLMClient._get_or_create_chat_history`  (src/app/llm_client.py)
  - `GeminiLLMClient._get_supported_mime_type`     (src/app/llm_client.py)
  - `GeminiLLMClient._process_file_for_api`        (src/app/llm_client.py)
  - `GeminiLLMClient.process_user_message`         (src/app/llm_client.py)
  - `WhatsAppLLMService.handle_incoming_message`   (src/app/llm_service.py)

External collaborators (the filesystem, `mimetypes.guess_type`, the Gemini
upload and generate calls, the SQLite connection, `time.time`) are modelled as
explicit environment records of functions; exceptions are modelled with
`Except`; Python truthiness of optional strings with `truthy`; Python
`str.strip` with `pyStrip`.
-/

namespace App

/-- Python truthiness of an `Optional[str]`: `None` and the empty string are
falsy, every other string is truthy. -/
def truthy : Option String → Bool
  | none => false
  | some s => !(s == "")

/-- Python `str.strip()` on the character list: drop leading and trailing
whitespace. -/
def stripChars (l : List Char) : List Char :=
  ((l.dropWhile Char.isWhitespace).reverse.dropWhile Char.isWhitespace).reverse

/-- Model of Python `str.strip()`. -/
def pyStrip (s : String) : String :=
  String.mk (stripChars s.data)

/-- One row of the `messages` table
(see `ConversationDBManager._create_messages_table`). -/
structure DBRow where
  id : Nat
  sender_phone : String
  role : String
  message_id : Option String
  type : String
  text_content : Option String
  local_file_path : Option String
  timestamp : Int
deriving DecidableEq, Repr

/-- A GenAI content part dictionary, keyed by text, inline_data or
file_data (as constructed in llm_client.py). -/
inductive GenPart where
  | text (t : String)
  | inline_data (mime_type : String) (data : String)
  | file_data (mime_type : String) (file_uri : String)
deriving DecidableEq, Repr

/-- A GenAI content dictionary: role plus list of parts. -/
structure Content where
  role : String
  parts : List GenPart
deriving DecidableEq, Repr

/-! ## History Formatter: `GeminiLLMClient._format_db_history_for_genai` -/

/-- Embedding of `_format_db_history_for_genai`: walk the DB history rows in
order; map stored role `assistant` to `model` and everything else to `user`;
a row contributes a single text part exactly when its `type` is `"text"` and
its `text_content` is truthy; rows with no parts are skipped. -/
def format_db_history_for_genai : List DBRow → List Content
  | [] => []
  | turn :: rest =>
    let genai_role := if turn.role == "assistant" then "model" else "user"
    let parts : List GenPart :=
      if turn.type == "text" && truthy turn.text_content then
        [GenPart.text (turn.text_content.getD "")]
      else []
    if parts.isEmpty then
      format_db_history_for_genai rest
    else
      { role := genai_role, parts := parts } :: format_db_history_for_genai rest

/-! ## History Store Adapter: `ConversationDBManager.get_history`

The `messages` table is modelled as a list of rows in insertion (rowid)
order.  The SQL query sorts the rows of the conversation by `timestamp DESC`,
takes `limit` of them, and re-sorts ascending; `List.insertionSort` models
the SQL `ORDER BY` comparison sort. -/

/-- The SQL `ORDER BY timestamp DESC` comparison. -/
def ts_desc (a b : DBRow) : Prop := b.timestamp ≤ a.timestamp

/-- The SQL `ORDER BY timestamp ASC` comparison. -/
def ts_asc (a b : DBRow) : Prop := a.timestamp ≤ b.timestamp

instance : DecidableRel ts_desc := fun a b =>
  inferInstanceAs (Decidable (b.timestamp ≤ a.timestamp))

instance : DecidableRel ts_asc := fun a b =>
  inferInstanceAs (Decidable (a.timestamp ≤ b.timestamp))

instance : IsTotal DBRow ts_desc :=
  ⟨fun a b => le_total b.timestamp a.timestamp⟩

instance : IsTrans DBRow ts_desc :=
  ⟨fun _ _ _ h1 h2 => le_trans h2 h1⟩

instance : IsTotal DBRow ts_asc :=
  ⟨fun a b => le_total a.timestamp b.timestamp⟩

instance : IsTrans DBRow ts_asc :=
  ⟨fun _ _ _ h1 h2 => le_trans h1 h2⟩

/-- Embedding of `ConversationDBManager.get_history`: select the rows of the
conversation, order by timestamp descending, keep at most `limit`, and
present the kept rows ordered by timestamp ascending. -/
def get_history (messages : List DBRow) (sender_phone : String) (limit : Nat) :
    List DBRow :=
  let matching := messages.filter (fun r => r.sender_phone == sender_phone)
  let recent := (List.insertionSort ts_desc matching).take limit
  List.insertionSort ts_asc recent

/-! ## Helper lemmas about sorted permutations -/

/-- Two permuted lists that are both pairwise-ordered by an asymmetric
relation are equal. -/
theorem eq_of_perm_of_pairwise {α : Type} {s : α → α → Prop}
    (hasymm : ∀ a b, s a b → s b a → False) :
    ∀ {l₁ l₂ : List α}, l₁.Perm l₂ → l₁.Pairwise s → l₂.Pairwise s → l₁ = l₂ := by
  intro l₁
  induction l₁ with
  | nil =>
    intro l₂ hp _ _
    exact (hp.symm.eq_nil).symm
  | cons a t ih =>
    intro l₂ hp hp1 hp2
    cases l₂ with
    | nil => exact absurd hp.eq_nil (by simp)
    | cons b t₂ =>
      by_cases hab : a = b
      · subst hab
        have ht : t.Perm t₂ := hp.cons_inv
        have h1 := (List.pairwise_cons.mp hp1).2
        have h2 := (List.pairwise_cons.mp hp2).2
        rw [ih ht h1 h2]
      · exfalso
        have ha2 : a ∈ b :: t₂ := hp.mem_iff.mp (List.mem_cons_self a t)
        have ha2' : a ∈ t₂ := by
          cases ha2 with
          | head => exact absurd rfl hab
          | tail _ h => exact h
        have hb1 : b ∈ a :: t := hp.symm.mem_iff.mp (List.mem_cons_self b t₂)
        have hb1' : b ∈ t := by
          cases hb1 with
          | head => exact absurd rfl (fun h => hab h.symm)
          | tail _ h => exact h
        have hsab : s a b := (List.pairwise_cons.mp hp1).1 b hb1'
        have hsba : s b a := (List.pairwise_cons.mp hp2).1 a ha2'
        exact hasymm a b hsab hsba

/-- Sorting a strictly-ascending-timestamp list of rows by
`timestamp DESC` yields its reverse. -/
theorem insertionSort_desc_of_strict_asc (l : List App.DBRow)
    (h : l.Pairwise (fun a b => a.timestamp < b.timestamp)) :
    List.insertionSort App.ts_desc l = l.reverse := by
  apply eq_of_perm_of_pairwise (s := fun a b : App.DBRow => b.timestamp < a.timestamp)
    (fun a b h1 h2 => absurd h1 (not_lt_of_lt h2))
  · exact (List.perm_insertionSort _ l).trans (List.reverse_perm l).symm
  · have hsorted : List.Pairwise App.ts_desc (List.insertionSort App.ts_desc l) :=
      List.sorted_insertionSort App.ts_desc l
    have hne0 : l.Pairwise (fun a b : App.DBRow => a.timestamp ≠ b.timestamp) :=
      h.imp (fun hab => ne_of_lt hab)
    have hne : (List.insertionSort App.ts_desc l).Pairwise
        (fun a b : App.DBRow => a.timestamp ≠ b.timestamp) :=
      ((List.perm_insertionSort App.ts_desc l).pairwise_iff
        (fun hxy => hxy.symm)).mpr hne0
    exact (hsorted.and hne).imp
      (fun hab => lt_of_le_of_ne hab.1 (fun e => hab.2 e.symm))
  · exact List.pairwise_reverse.mpr h

/-- Sorting a strictly-descending-timestamp list of rows by
`timestamp ASC` yields its reverse. -/
theorem insertionSort_asc_of_strict_desc (l : List App.DBRow)
    (h : l.Pairwise (fun a b => b.timestamp < a.timestamp)) :
    List.insertionSort App.ts_asc l = l.reverse := by
  apply eq_of_perm_of_pairwise (s := fun a b : App.DBRow => a.timestamp < b.timestamp)
    (fun a b h1 h2 => absurd h1 (not_lt_of_lt h2))
  · exact (List.perm_insertionSort _ l).trans (List.reverse_perm l).symm
  · have hsorted : List.Pairwise App.ts_asc (List.insertionSort App.ts_asc l) :=
      List.sorted_insertionSort App.ts_asc l
    have hne0 : l.Pairwise (fun a b : App.DBRow => a.timestamp ≠ b.timestamp) :=
      h.imp (fun hab => ne_of_gt hab)
    have hne : (List.insertionSort App.ts_asc l).Pairwise
        (fun a b : App.DBRow => a.timestamp ≠ b.timestamp) :=
      ((List.perm_insertionSort App.ts_asc l).pairwise_iff
        (fun hxy => hxy.symm)).mpr hne0
    exact (hsorted.and hne).imp
      (fun hab => lt_of_le_of_ne hab.1 hab.2)
  · exact List.pairwise_reverse.mpr h

/-! ## Claim C5: the History Formatter -/

/-- C5: For every ordered sequence of stored conversation rows,
`_format_db_history_for_genai` returns exactly the rows with
`type == "text"` and non-empty (truthy) `text_content`, each as a
single-text-part turn, in the same relative order as the input, mapping
stored role `assistant` to model role `model` and every other stored role to
model role `user`; all other rows are dropped without error. -/
theorem claim_C5_format_filter_map (db : List DBRow) :
    format_db_history_for_genai db =
      (db.filter (fun t => t.type == "text" && truthy t.text_content)).map
        (fun t => { role := if t.role == "assistant" then "model" else "user",
                    parts := [GenPart.text (t.text_content.getD "")] }) := by
  induction db with
  | nil => rfl
  | cons t rest ih =>
    by_cases h : (t.type == "text" && truthy t.text_content) = true
    · simp [format_db_history_for_genai, List.filter_cons, h, ih]
    · simp [format_db_history_for_genai, List.filter_cons, h, ih]

/-! ## Claim C3: the History Store Adapter returns the most recent rows -/

/-- C3: For every stored `messages` table whose rows for a conversation have
a well-defined chronology (strictly increasing timestamps in insertion
order) and hold more than `limit` rows for that conversation,
`get_history(conversationId, limit)` returns exactly `limit` rows, and these
are the chronologically most recent `limit` rows for that conversation (the
final `limit` rows written, not the first ones), presented in ascending
chronological order. -/
theorem claim_C3_get_history_recent (messages : List DBRow) (phone : String)
    (limit : Nat)
    (hchrono : (messages.filter (fun r => r.sender_phone == phone)).Pairwise
      (fun a b => a.timestamp < b.timestamp))
    (hmore : limit < (messages.filter (fun r => r.sender_phone == phone)).length) :
    get_history messages phone limit =
      (messages.filter (fun r => r.sender_phone == phone)).drop
        ((messages.filter (fun r => r.sender_phone == phone)).length - limit) ∧
    (get_history messages phone limit).length = limit ∧
    (get_history messages phone limit).Pairwise
      (fun a b => a.timestamp < b.timestamp) := by
  set F := messages.filter (fun r => r.sender_phone == phone) with hF
  have hdef : get_history messages phone limit
      = List.insertionSort ts_asc ((List.insertionSort ts_desc F).take limit) := rfl
  have h1 : List.insertionSort ts_desc F = F.reverse :=
    insertionSort_desc_of_strict_asc F hchrono
  have hXpair : (F.reverse.take limit).Pairwise
      (fun a b : DBRow => b.timestamp < a.timestamp) :=
    List.Pairwise.sublist (List.take_sublist limit F.reverse)
      (List.pairwise_reverse.mpr hchrono)
  have h2 : List.insertionSort ts_asc (F.reverse.take limit)
      = (F.reverse.take limit).reverse :=
    insertionSort_asc_of_strict_desc _ hXpair
  have h3 : (F.reverse.take limit).reverse = F.drop (F.length - limit) := by
    have h := List.reverse_take (l := F.reverse) (n := limit)
    simpa using h
  have hmain : get_history messages phone limit = F.drop (F.length - limit) := by
    rw [hdef, h1, h2, h3]
  refine ⟨hmain, ?_, ?_⟩
  · rw [hmain, List.length_drop, Nat.sub_sub_self (le_of_lt hmore)]
  · rw [hmain]
    exact List.Pairwise.sublist (List.drop_sublist _ _) hchrono

/-- A concrete `messages` table used as the C3 witness: three rows for
conversation `p1` with increasing timestamps plus one row for another
conversation. -/
def msgsW : List DBRow :=
  [ ⟨1, "p1", "user", some "a", "text", some "hello", none, 10⟩,
    ⟨2, "p2", "user", some "b", "text", some "other", none, 15⟩,
    ⟨3, "p1", "assistant", none, "text", some "hi there", none, 20⟩,
    ⟨4, "p1", "user", some "c", "text", some "how are you", none, 30⟩ ]

/-- Witness for C3 at a concrete table: with four rows of which three belong
to `p1` and `limit = 2`, the last two `p1` rows come back, oldest first. -/
theorem claim_C3_witness :
    (msgsW.filter (fun r => r.sender_phone == "p1")).Pairwise
      (fun a b => a.timestamp < b.timestamp) ∧
    2 < (msgsW.filter (fun r => r.sender_phone == "p1")).length ∧
    (get_history msgsW "p1" 2 =
      (msgsW.filter (fun r => r.sender_phone == "p1")).drop
        ((msgsW.filter (fun r => r.sender_phone == "p1")).length - 2) ∧
    (get_history msgsW "p1" 2).length = 2 ∧
    (get_history msgsW "p1" 2).Pairwise (fun a b => a.timestamp < b.timestamp)) :=
  ⟨by decide, by decide, claim_C3_get_history_recent msgsW "p1" 2 (by decide) (by decide)⟩

/-! ## Attachment Processor: `GeminiLLMClient._process_file_for_api`

The filesystem (`os.path`, `open`, `mimetypes.guess_type`) and the upload
collaborator (`genai.upload_file`) are modelled as records of functions;
`HTTPException` as an error value carrying the status code and detail. -/

/-- The inline-vs-upload size threshold in megabytes (llm_client.py). -/
def INLINE_FILE_SIZE_THRESHOLD_MB : Nat := 4

/-- The inline-vs-upload size threshold in bytes (llm_client.py). -/
def INLINE_FILE_SIZE_THRESHOLD_BYTES : Nat :=
  INLINE_FILE_SIZE_THRESHOLD_MB * 1024 * 1024

/-- The supported MIME type set `SUPPORTED_GENAI_MIMETYPES` (llm_client.py). -/
def SUPPORTED_GENAI_MIMETYPES : List String :=
  [ "image/png", "image/jpeg", "image/webp", "image/heic", "image/heif",
    "audio/wav", "audio/mp3", "audio/aiff", "audio/aac", "audio/ogg", "audio/flac",
    "video/mp4", "video/mpeg", "video/mov", "video/avi", "video/x-flv", "video/mpg",
    "video/webm", "video/wmv", "video/3gpp",
    "text/plain", "text/html", "text/css", "text/javascript", "application/x-javascript",
    "text/x-python", "application/x-python", "text/x-java-source", "text/x-java",
    "text/x-c", "text/x-csrc", "text/x-cpp", "text/x-c++src", "application/json",
    "text/markdown", "text/csv", "application/pdf", "text/rtf", "application/rtf",
    "text/xml", "application/xml" ]

/-- The filesystem collaborator: `os.path.exists`, `mimetypes.guess_type`,
`os.path.splitext(...)[1].lower()`, `os.path.getsize`, `os.path.basename`,
and the binary read (which may raise, hence `Except`). -/
structure FileSystem where
  pathExists : String → Bool
  guess_type : String → Option String
  splitext_lower : String → String
  getsize : String → Nat
  basename : String → String
  read_bytes : String → Except Unit (List Nat)

/-- The object returned by `genai.upload_file`. -/
structure UploadedFile where
  mime_type : String
  uri : String
deriving DecidableEq, Repr

/-- The upload collaborator: `genai.upload_file(path, mime_type)`, which may
raise. -/
structure GenAIClient where
  upload_file : String → String → Except Unit UploadedFile

/-- A raised `fastapi.HTTPException` with its status code and detail. -/
inductive ApiError where
  | httpException (status_code : Nat) (detail : String)
deriving DecidableEq, Repr

/-- The base64 alphabet. -/
def base64_alphabet : List Char :=
  "ABCDEFGHIJKLMNOPQRSTUVWXYZabcdefghijklmnopqrstuvwxyz0123456789+/".data

/-- One base64 digit. -/
def b64c (n : Nat) : Char := base64_alphabet.getD n 'A'

/-- base64 encoding of a byte list, with padding (models
`base64.b64encode`). -/
def b64encode : List Nat → List Char
  | [] => []
  | [a] =>
    [b64c (a / 4 % 64), b64c (a % 4 * 16), '=', '=']
  | [a, b] =>
    [b64c (a / 4 % 64), b64c (a % 4 * 16 + b / 16 % 16), b64c (b % 16 * 4), '=']
  | a :: b :: c :: rest =>
    b64c (a / 4 % 64) :: b64c (a % 4 * 16 + b / 16 % 16) ::
      b64c (b % 16 * 4 + c / 64 % 4) :: b64c (c % 64) :: b64encode rest

/-- Models `base64.b64encode(file_bytes).decode` as a string. -/
def base64_b64encode (file_bytes : List Nat) : String :=
  String.mk (b64encode file_bytes)

/-- Embedding of `_get_supported_mime_type`: guess the MIME type, fall back
to explicit `.heic`/`.heif` extension checks, raise 415 when the type cannot
be determined or is not in the supported set. -/
def get_supported_mime_type (fs : FileSystem) (local_file_path : String) :
    Except ApiError String :=
  let guessed : Option String :=
    match fs.guess_type local_file_path with
    | some m => some m
    | none =>
      let ext := fs.splitext_lower local_file_path
      if ext == ".heic" then some "image/heic"
      else if ext == ".heif" then some "image/heif"
      else none
  match guessed with
  | none =>
    .error (.httpException 415
      ("Could not determine MIME type for file: " ++ fs.basename local_file_path))
  | some mime_type =>
    if SUPPORTED_GENAI_MIMETYPES.contains mime_type then .ok mime_type
    else
      .error (.httpException 415
        ("Unsupported file type: " ++ mime_type ++ ". Please provide a supported format."))

/-- Embedding of `_prepare_inline_file_part`: read the bytes and build an
`inline_data` part with the base64 payload; any read failure raises 500. -/
def prepare_inline_file_part (fs : FileSystem)
    (local_file_path mime_type : String) : Except ApiError GenPart :=
  match fs.read_bytes local_file_path with
  | .error _ =>
    .error (.httpException 500
      ("Failed to prepare inline file data for: " ++ fs.basename local_file_path))
  | .ok file_bytes =>
    .ok (GenPart.inline_data mime_type (base64_b64encode file_bytes))

/-- Embedding of `_upload_file`: hand the file to `genai.upload_file` and
build a `file_data` part from the returned handle; failure raises 500. -/
def upload_file_part (ga : GenAIClient) (fs : FileSystem)
    (local_file_path mime_type : String) : Except ApiError GenPart :=
  match ga.upload_file local_file_path mime_type with
  | .error _ =>
    .error (.httpException 500 ("Failed to upload file: " ++ fs.basename local_file_path))
  | .ok uploaded_file =>
    .ok (GenPart.file_data uploaded_file.mime_type uploaded_file.uri)

/-- Embedding of `_process_file_for_api`: check existence (else 404), then
MIME type (else 415), then branch on the size threshold: at most
`INLINE_FILE_SIZE_THRESHOLD_BYTES` goes inline, larger files are uploaded. -/
def process_file_for_api (fs : FileSystem) (ga : GenAIClient)
    (local_file_path : String) : Except ApiError GenPart :=
  if !(fs.pathExists local_file_path) then
    .error (.httpException 404 ("File not found: " ++ fs.basename local_file_path))
  else
    match get_supported_mime_type fs local_file_path with
    | .error e => .error e
    | .ok mime_type =>
      let file_size := fs.getsize local_file_path
      if file_size ≤ INLINE_FILE_SIZE_THRESHOLD_BYTES then
        prepare_inline_file_part fs local_file_path mime_type
      else
        upload_file_part ga fs local_file_path mime_type

/-! ## Claim C4: inline-vs-upload size threshold -/

/-- C4: For every file whose MIME type is supported and determinable (and
which exists), `_process_file_for_api` produces an inline part (base64
payload plus MIME type) when the file size is at most 4 MiB
(4,194,304 bytes), and an uploaded-reference part when the size exceeds that
threshold. -/
theorem claim_C4_size_threshold (fs : FileSystem) (ga : GenAIClient)
    (path mime : String)
    (hex : fs.pathExists path = true)
    (hm : get_supported_mime_type fs path = .ok mime) :
    INLINE_FILE_SIZE_THRESHOLD_BYTES = 4194304 ∧
    (∀ bs, fs.read_bytes path = .ok bs → fs.getsize path ≤ 4194304 →
      process_file_for_api fs ga path =
        .ok (GenPart.inline_data mime (base64_b64encode bs))) ∧
    (∀ uf, ga.upload_file path mime = .ok uf → 4194304 < fs.getsize path →
      process_file_for_api fs ga path =
        .ok (GenPart.file_data uf.mime_type uf.uri)) := by
  have hT : INLINE_FILE_SIZE_THRESHOLD_BYTES = 4194304 := rfl
  refine ⟨hT, ?_, ?_⟩
  · intro bs hbs hsize
    unfold process_file_for_api
    rw [hex, hm]
    simp only [Bool.not_true, Bool.false_eq_true, if_false, hT]
    rw [if_pos hsize]
    unfold prepare_inline_file_part
    rw [hbs]
  · intro uf huf hsize
    unfold process_file_for_api
    rw [hex, hm]
    simp only [Bool.not_true, Bool.false_eq_true, if_false, hT]
    rw [if_neg (not_le_of_lt hsize)]
    unfold upload_file_part
    rw [huf]

/-- A concrete filesystem for the C4 witness: every path exists and is a
PNG; `big.png` is 5,000,000 bytes, anything else is 1,000,000 bytes. -/
def fsW : FileSystem :=
  { pathExists := fun _ => true,
    guess_type := fun _ => some "image/png",
    splitext_lower := fun _ => ".png",
    getsize := fun p => if p == "big.png" then 5000000 else 1000000,
    basename := fun p => p,
    read_bytes := fun _ => .ok [137, 80, 78, 71] }

/-- A concrete upload collaborator for the C4 witness. -/
def gaW : GenAIClient :=
  { upload_file := fun _ _ => .ok ⟨"image/png", "files/abc123"⟩ }

/-- Witness for C4 at the spec scenario: a 5,000,000-byte `image/png`
produces an uploaded part and a 1,000,000-byte one an inline part. -/
theorem claim_C4_witness :
    (fsW.pathExists "big.png" = true ∧
     get_supported_mime_type fsW "big.png" = .ok "image/png" ∧
     gaW.upload_file "big.png" "image/png" =
       .ok { mime_type := "image/png", uri := "files/abc123" } ∧
     4194304 < fsW.getsize "big.png" ∧
     process_file_for_api fsW gaW "big.png" =
       .ok (GenPart.file_data "image/png" "files/abc123")) ∧
    (fsW.read_bytes "small.png" = .ok [137, 80, 78, 71] ∧
     fsW.getsize "small.png" ≤ 4194304 ∧
     process_file_for_api fsW gaW "small.png" =
       .ok (GenPart.inline_data "image/png" (base64_b64encode [137, 80, 78, 71]))) :=
  ⟨⟨rfl, rfl, rfl, by decide,
    (claim_C4_size_threshold fsW gaW "big.png" "image/png" rfl rfl).2.2
      { mime_type := "image/png", uri := "files/abc123" } rfl (by decide)⟩,
   ⟨rfl, by decide,
    (claim_C4_size_threshold fsW gaW "small.png" "image/png" rfl rfl).2.1
      [137, 80, 78, 71] rfl (by decide)⟩⟩

/-! ## Conversation Session Cache: `GeminiLLMClient._get_or_create_chat_history`

`self.chat_histories : Dict[str, List]` is modelled as an association list;
the durable store read `db_manager.get_history(sender_phone)` (which may
raise) and the Gemini `generate_content_async` call are modelled in an
environment record. -/

/-- The in-memory `chat_histories` dictionary. -/
abbrev ChatHistories : Type := List (String × List Content)

/-- Dictionary membership/lookup on `chat_histories`. -/
def lookupHist : ChatHistories → String → Option (List Content)
  | [], _ => none
  | (k, v) :: rest, sender_phone =>
    if k == sender_phone then some v else lookupHist rest sender_phone

/-- Dictionary assignment `chat_histories[sender_phone] = h`. -/
def setHist : ChatHistories → String → List Content → ChatHistories
  | [], sender_phone, h => [(sender_phone, h)]
  | (k, v) :: rest, sender_phone, h =>
    if k == sender_phone then (sender_phone, h) :: rest
    else (k, v) :: setHist rest sender_phone h

/-- The raw object returned by `generate_content_async`, as probed by
`process_user_message`: accessing `response.text` and
`response.candidates[0].content` may each raise; `prompt_feedback.block_reason`
is `some r` when the attribute chain is present (the reason string may still
be falsy, i.e. empty); `has_candidates` tells whether a non-empty
`candidates` attribute exists. -/
structure ModelResponse where
  text_attr : Except Unit (Option String)
  candidate_content : Except Unit Content
  block_reason : Option String
  has_candidates : Bool

/-- The collaborators `GeminiLLMClient` uses: the filesystem, the upload
client, the durable store read (per conversation identifier), and the model
invocation. -/
structure LLMEnv where
  fs : FileSystem
  ga : GenAIClient
  db_get_history : String → Except Unit (List DBRow)
  generate : List Content → Except Unit ModelResponse

/-- Result of `_get_or_create_chat_history`: the updated `chat_histories`,
the returned history list, and whether the durable store was consulted
(hydration). -/
structure GetHistResult where
  state : ChatHistories
  history : List Content
  hydrated : Bool

/-- Embedding of `_get_or_create_chat_history`: if the identifier has an
in-memory entry, return it untouched; otherwise read and format the durable
history (any failure is swallowed, leaving the empty list) and store the
result in `chat_histories` before returning it. -/
def get_or_create_chat_history (env : LLMEnv) (s : ChatHistories)
    (sender_phone : String) : GetHistResult :=
  match lookupHist s sender_phone with
  | some h => ⟨s, h, false⟩
  | none =>
    let formatted : List Content :=
      match env.db_get_history sender_phone with
      | .ok db_history_rows =>
        if db_history_rows.isEmpty then []
        else format_db_history_for_genai db_history_rows
      | .error _ => []
    ⟨setHist s sender_phone formatted, formatted, true⟩

/-! ## Model Request Orchestrator: `GeminiLLMClient.process_user_message` -/

/-- The spec-level classification (`ModelOutcome`) of the return site taken
by `process_user_message`: `Success`, `EmptyOrMalformed` and `SafetyBlocked`
as in the spec, plus `PromptForInput` for the missing-input short circuit
and `ErrorRaised` for a propagated exception. -/
inductive ModelOutcome where
  | Success (text : String)
  | EmptyOrMalformed
  | SafetyBlocked (reason : String)
  | PromptForInput
  | ErrorRaised
deriving DecidableEq, Repr

/-- The `input_data` dictionary built by the service: only the
`text_content` and `local_file_path` keys are read by
`process_user_message` (the `type` and `mime_type` keys are never read). -/
structure InputData where
  text_content : Option String
  local_file_path : Option String

/-- Result of `process_user_message`: the updated `chat_histories`, the
returned string or raised exception, the spec-level outcome of the return
site taken, and whether the model was invoked. -/
structure ProcResult where
  state : ChatHistories
  result : Except ApiError String
  outcome : ModelOutcome
  model_called : Bool

/-- The file-processing stage of `process_user_message`: when a truthy
`local_file_path` is given, `_process_file_for_api` contributes one part
(propagating its exceptions); otherwise no parts. -/
def file_parts_stage (env : LLMEnv) (input_data : InputData) :
    Except ApiError (List GenPart) :=
  if truthy input_data.local_file_path then
    match process_file_for_api env.fs env.ga (input_data.local_file_path.getD "") with
    | .ok file_part_dict => .ok [file_part_dict]
    | .error e => .error e
  else .ok []

/-- The text part of the new user turn: present when `text_content` is
truthy. -/
def text_parts (input_data : InputData) : List GenPart :=
  if truthy input_data.text_content then
    [GenPart.text (input_data.text_content.getD "")]
  else []

/-- The tail of the happy path of `process_user_message` (after both
`response.text` and `response.candidates[0].content` were extracted and the
two turns were appended, giving the cache `s2`): return the blank-text
apology when `ai_response_text` is `None` or blank after stripping, else
the stripped text. -/
def finalize_text_response (s2 : ChatHistories)
    (ai_response_text : Option String) : ProcResult :=
  match ai_response_text with
  | none =>
    ⟨s2, .ok "Sorry, I couldn\x27t generate a meaningful response for that.",
      .EmptyOrMalformed, true⟩
  | some t =>
    if pyStrip t == "" then
      ⟨s2, .ok "Sorry, I couldn\x27t generate a meaningful response for that.",
        .EmptyOrMalformed, true⟩
    else
      ⟨s2, .ok (pyStrip t), .Success (pyStrip t), true⟩

/-- The `except`-branch of `process_user_message` (taken when extracting
`response.text` or `response.candidates[0].content` raised): report a
safety block when the feedback chain carries a truthy block reason, else
the no-candidates apology when the candidates attribute is missing or
empty, else the generic apology.  The cache `st` is left as it was. -/
def exception_fallback (st : ChatHistories) (response : ModelResponse) :
    ProcResult :=
  match response.block_reason with
  | some block_reason =>
    if !(block_reason == "") then
      ⟨st,
        .ok ("My response was blocked due to safety reasons (" ++ block_reason
          ++ "). Please modify your prompt or file."),
        .SafetyBlocked block_reason, true⟩
    else
      ⟨st,
        .ok "Sorry, I encountered an issue generating or understanding the response.",
        .EmptyOrMalformed, true⟩
  | none =>
    if !response.has_candidates then
      ⟨st, .ok "Sorry, I couldn\x27t generate a response for that input.",
        .EmptyOrMalformed, true⟩
    else
      ⟨st,
        .ok "Sorry, I encountered an issue generating or understanding the response.",
        .EmptyOrMalformed, true⟩

/-- Embedding of `process_user_message`.  Mirrors the source: short-circuit
when both text and file path are falsy; fetch (or hydrate) the session
history; process the attachment; build the user turn (file part first, then
text part); invoke the model on history plus the new turn; on successful
extraction of `response.text` and `response.candidates[0].content`, append
both the user turn and the model turn to the session history and only then
check for blank text; on an extraction exception, classify a safety block,
then an empty candidate list, then fall back to a generic apology.  Any
exception before that point propagates, and non-`HTTPException` failures of
the model call surface as a 500. -/
def process_user_message (env : LLMEnv) (s : ChatHistories)
    (sender_phone : String) (input_data : InputData) : ProcResult :=
  let user_prompt_text := input_data.text_content
  if !truthy user_prompt_text && !truthy input_data.local_file_path then
    ⟨s, .ok "Please provide a message or a file to process.",
      .PromptForInput, false⟩
  else
    let gh := get_or_create_chat_history env s sender_phone
    match file_parts_stage env input_data with
    | .error e => ⟨gh.state, .error e, .ErrorRaised, false⟩
    | .ok file_parts =>
      let input_parts : List GenPart := file_parts ++ text_parts input_data
      if input_parts.isEmpty then
        ⟨gh.state, .error (.httpException 500 "Internal error processing input."),
          .ErrorRaised, false⟩
      else
        let current_user_content : Content := ⟨"user", input_parts⟩
        let messages_to_send := gh.history ++ [current_user_content]
        match env.generate messages_to_send with
        | .error _ =>
          ⟨gh.state,
            .error (.httpException 500
              "An unexpected error occurred while processing your request."),
            .ErrorRaised, true⟩
        | .ok response =>
          match response.text_attr, response.candidate_content with
          | .ok ai_response_text, .ok model_response_content =>
            finalize_text_response
              (setHist gh.state sender_phone
                (gh.history ++ [current_user_content, model_response_content]))
              ai_response_text
          | _, _ => exception_fallback gh.state response

/-! ## Message Dispatch Orchestrator: `WhatsAppLLMService.handle_incoming_message`

The observable collaborator calls (durable-store writes via
`db_manager.save_message`, the LLM invocation, and outbound sends via the
`whatsapp_text_sender`) are recorded as an effect trace; the embedding being
a total function models that `handle_incoming_message` never re-raises
(every failure is contained by its `try/except` blocks). -/

/-- The fields of the parsed webhook `IncomingMessageData` that
`handle_incoming_message` reads (models.py). -/
structure IncomingMessageData where
  id : String
  type : String
  sender_phone : String
  body : Option String
  timestamp : Int
  is_mine : Bool
  media_type : Option String
  local_file_path : Option String

/-- One observable collaborator call made by the service: a
`db_manager.save_message` invocation, the LLM invocation, or a
`whatsapp_text_sender` invocation. -/
inductive Effect where
  | save_message (sender_phone role : String) (message_id : Option String)
      (type : String) (text_content : Option String)
      (local_file_path : Option String) (timestamp : Int)
  | llm_call (sender_phone : String)
  | send_text (sender_phone : String) (message : String)
deriving DecidableEq, Repr

/-- The service environment: the LLM client's collaborators plus
`int(time.time())` at the outbound save. -/
structure ServiceEnv where
  llm : LLMEnv
  now : Int

/-- Result of `handle_incoming_message`: the updated session cache and the
trace of collaborator calls, in order. -/
structure HandleResult where
  state : ChatHistories
  effects : List Effect

/-- Embedding of `handle_incoming_message`: ignore self-sent messages;
persist the inbound turn (failures swallowed); call
`process_user_message`; if it raised, best-effort send the generic apology
(only when the sender identifier is truthy) and finish; otherwise drop the
reply without sending when it is falsy or equals the sentinel
`"I cannot respond to that prompt due to safety guidelines."`; otherwise
persist the assistant turn (failures swallowed) and send the reply
(failures swallowed). -/
def handle_incoming_message (env : ServiceEnv) (s : ChatHistories)
    (m : IncomingMessageData) : HandleResult :=
  if m.is_mine then ⟨s, []⟩
  else
    let e1 : List Effect :=
      [.save_message m.sender_phone "user" (some m.id) m.type m.body
        m.local_file_path m.timestamp]
    let pr := process_user_message env.llm s m.sender_phone
      ⟨m.body, m.local_file_path⟩
    let e2 := e1 ++ [.llm_call m.sender_phone]
    match pr.result with
    | .error _ =>
      ⟨pr.state,
        e2 ++ (if !(m.sender_phone == "") then
          [.send_text m.sender_phone "Sorry, I encountered an internal error."]
        else [])⟩
    | .ok ai_response_text =>
      if ai_response_text == ""
          || ai_response_text == "I cannot respond to that prompt due to safety guidelines." then
        ⟨pr.state, e2⟩
      else
        ⟨pr.state,
          e2 ++ [.save_message m.sender_phone "assistant" none "text"
                  (some ai_response_text) none env.now,
                .send_text m.sender_phone ai_response_text]⟩

/-! ## Session-cache lemmas and claims C6, C10 -/

/-- After `chat_histories[sender_phone] = h`, looking up `sender_phone`
returns `h`. -/
theorem lookup_setHist (s : ChatHistories) (sender_phone : String)
    (h : List Content) :
    lookupHist (setHist s sender_phone h) sender_phone = some h := by
  induction s with
  | nil => simp [setHist, lookupHist]
  | cons kv rest ih =>
    obtain ⟨k, v⟩ := kv
    by_cases hk : (k == sender_phone) = true
    · simp [setHist, lookupHist, hk]
    · simp [setHist, lookupHist, hk, ih]

/-- C6: For every conversation identifier, `_get_or_create_chat_history` is
idempotent: an identifier with an existing in-memory entry (even an empty
one) is returned untouched and never re-hydrated from the store, and two
successive calls with no intervening append return equal histories with
hydration happening at most once (never on the second call). -/
theorem claim_C6_cache_idempotent (env : LLMEnv) (s0 : ChatHistories)
    (sender_phone : String) :
    (∀ h, lookupHist s0 sender_phone = some h →
      get_or_create_chat_history env s0 sender_phone = ⟨s0, h, false⟩) ∧
    ((get_or_create_chat_history env
        (get_or_create_chat_history env s0 sender_phone).state sender_phone).history
      = (get_or_create_chat_history env s0 sender_phone).history ∧
     (get_or_create_chat_history env
        (get_or_create_chat_history env s0 sender_phone).state sender_phone).state
      = (get_or_create_chat_history env s0 sender_phone).state ∧
     (get_or_create_chat_history env
        (get_or_create_chat_history env s0 sender_phone).state sender_phone).hydrated
      = false) := by
  have hmem : ∀ h, lookupHist s0 sender_phone = some h →
      get_or_create_chat_history env s0 sender_phone = ⟨s0, h, false⟩ := by
    intro h hh
    unfold get_or_create_chat_history
    rw [hh]
  refine ⟨hmem, ?_⟩
  cases hl : lookupHist s0 sender_phone with
  | some h =>
    rw [hmem h hl]
    simp only
    rw [hmem h hl]
    exact ⟨rfl, rfl, rfl⟩
  | none =>
    have h1 : get_or_create_chat_history env s0 sender_phone =
        ⟨setHist s0 sender_phone
          (match env.db_get_history sender_phone with
            | .ok db_history_rows =>
              if db_history_rows.isEmpty then []
              else format_db_history_for_genai db_history_rows
            | .error _ => []),
          (match env.db_get_history sender_phone with
            | .ok db_history_rows =>
              if db_history_rows.isEmpty then []
              else format_db_history_for_genai db_history_rows
            | .error _ => []), true⟩ := by
      unfold get_or_create_chat_history
      rw [hl]
    rw [h1]
    simp only
    unfold get_or_create_chat_history
    rw [lookup_setHist]
    exact ⟨rfl, rfl, rfl⟩

/-- Witness for C6 at a concrete state: identifier `p1` has an existing
empty entry, so the cache returns it untouched without consulting the
store. -/
theorem claim_C6_witness :
    lookupHist [("p1", ([] : List Content))] "p1" = some [] ∧
    get_or_create_chat_history
      ⟨fsW, gaW, fun _ => .ok msgsW, fun _ => .error ()⟩
      [("p1", ([] : List Content))] "p1" =
        ⟨[("p1", ([] : List Content))], [], false⟩ :=
  ⟨rfl, (claim_C6_cache_idempotent
    ⟨fsW, gaW, fun _ => .ok msgsW, fun _ => .error ()⟩
    [("p1", ([] : List Content))] "p1").1 [] rfl⟩

/-- C10 (implicit): when there is no in-memory entry and the durable-store
read raises during hydration, `_get_or_create_chat_history` swallows the
error, stores an empty history for the identifier and returns it; because
that empty entry then exists, the store is not consulted again for the
identifier (the stored context is silently and permanently discarded). -/
theorem claim_C10_hydration_failure (env : LLMEnv) (s0 : ChatHistories)
    (sender_phone : String)
    (habsent : lookupHist s0 sender_phone = none)
    (hfail : env.db_get_history sender_phone = .error ()) :
    get_or_create_chat_history env s0 sender_phone =
      ⟨setHist s0 sender_phone [], [], true⟩ ∧
    get_or_create_chat_history env (setHist s0 sender_phone []) sender_phone =
      ⟨setHist s0 sender_phone [], [], false⟩ := by
  constructor
  · unfold get_or_create_chat_history
    rw [habsent, hfail]
  · unfold get_or_create_chat_history
    rw [lookup_setHist]

/-- Witness for C10: identifier `p9` is absent from the cache and the store
read fails; the cache stores and returns the empty history and does not
consult the store again. -/
theorem claim_C10_witness :
    lookupHist ([] : ChatHistories) "p9" = none ∧
    (LLMEnv.db_get_history ⟨fsW, gaW, fun _ => .error (), fun _ => .error ()⟩ "p9"
      = .error ()) ∧
    (get_or_create_chat_history ⟨fsW, gaW, fun _ => .error (), fun _ => .error ()⟩
        ([] : ChatHistories) "p9" = ⟨[("p9", [])], [], true⟩ ∧
     get_or_create_chat_history ⟨fsW, gaW, fun _ => .error (), fun _ => .error ()⟩
        [("p9", [])] "p9" = ⟨[("p9", [])], [], false⟩) :=
  ⟨rfl, rfl, claim_C10_hydration_failure
    ⟨fsW, gaW, fun _ => .error (), fun _ => .error ()⟩ [] "p9" rfl rfl⟩

/-! ## Claims C8 and C9: self-sent short circuit; missing-input short circuit -/

/-- C8: For every inbound message with the self-sent flag (`is_mine`) set,
`handle_incoming_message` returns immediately: no durable-store write, no
model invocation, no session-cache change and no outbound sender call (the
effect trace is empty and the cache is returned unchanged). -/
theorem claim_C8_self_sent (env : ServiceEnv) (s : ChatHistories)
    (m : IncomingMessageData) (h : m.is_mine = true) :
    handle_incoming_message env s m = ⟨s, []⟩ := by
  unfold handle_incoming_message
  rw [h]
  simp

/-- A trivial LLM environment for witnesses: the store read succeeds with
`msgsW` and the model call raises. -/
def envTriv : LLMEnv :=
  { fs := fsW, ga := gaW,
    db_get_history := fun _ => .ok msgsW,
    generate := fun _ => .error () }

/-- A concrete self-sent inbound message. -/
def msgSelf : IncomingMessageData :=
  { id := "m1", type := "text", sender_phone := "p1", body := some "hello",
    timestamp := 5, is_mine := true, media_type := none, local_file_path := none }

/-- Witness for C8 at a concrete self-sent message. -/
theorem claim_C8_witness :
    msgSelf.is_mine = true ∧
    handle_incoming_message ⟨envTriv, 100⟩ [] msgSelf = ⟨[], []⟩ :=
  ⟨rfl, claim_C8_self_sent ⟨envTriv, 100⟩ [] msgSelf rfl⟩

/-- C9: For every call to `process_user_message` with both the user text
and the attachment path absent or empty (falsy), it short-circuits and
returns the fixed prompt-for-input message without raising, without
invoking the model and without mutating the session cache. -/
theorem claim_C9_prompt_for_input (env : LLMEnv) (s : ChatHistories)
    (sender_phone : String) (input_data : InputData)
    (ht : truthy input_data.text_content = false)
    (hf : truthy input_data.local_file_path = false) :
    process_user_message env s sender_phone input_data =
      ⟨s, .ok "Please provide a message or a file to process.",
        .PromptForInput, false⟩ := by
  unfold process_user_message
  simp [ht, hf]

/-- Witness for C9: empty text and no file path. -/
theorem claim_C9_witness :
    truthy (InputData.text_content ⟨some "", none⟩) = false ∧
    truthy (InputData.local_file_path ⟨some "", none⟩) = false ∧
    process_user_message envTriv [] "p1" ⟨some "", none⟩ =
      ⟨[], .ok "Please provide a message or a file to process.",
        .PromptForInput, false⟩ :=
  ⟨rfl, rfl, claim_C9_prompt_for_input envTriv [] "p1" ⟨some "", none⟩ rfl rfl⟩

/-! ## Claim C7: attachment failure ordering and the generic apology -/

/-- `_get_supported_mime_type` only ever raises with HTTP status 415. -/
theorem get_supported_mime_type_error_415 (fs : FileSystem) (path : String)
    (e : ApiError) (h : get_supported_mime_type fs path = .error e) :
    ∃ d, e = .httpException 415 d := by
  unfold get_supported_mime_type at h
  cases hg : fs.guess_type path with
  | some m =>
    rw [hg] at h
    simp only at h
    by_cases hc : SUPPORTED_GENAI_MIMETYPES.contains m = true
    · rw [if_pos hc] at h
      exact absurd h (by simp)
    · rw [if_neg hc] at h
      exact ⟨_, (Except.error.injEq _ _).mp h |>.symm⟩
  | none =>
    rw [hg] at h
    simp only at h
    by_cases h1 : (fs.splitext_lower path == ".heic") = true
    · rw [if_pos h1] at h
      simp only at h
      by_cases hc : SUPPORTED_GENAI_MIMETYPES.contains "image/heic" = true
      · rw [if_pos hc] at h
        exact absurd h (by simp)
      · rw [if_neg hc] at h
        exact ⟨_, (Except.error.injEq _ _).mp h |>.symm⟩
    · rw [if_neg h1] at h
      by_cases h2 : (fs.splitext_lower path == ".heif") = true
      · rw [if_pos h2] at h
        simp only at h
        by_cases hc : SUPPORTED_GENAI_MIMETYPES.contains "image/heif" = true
        · rw [if_pos hc] at h
          exact absurd h (by simp)
        · rw [if_neg hc] at h
          exact ⟨_, (Except.error.injEq _ _).mp h |>.symm⟩
      · rw [if_neg h2] at h
        simp only at h
        exact ⟨_, (Except.error.injEq _ _).mp h |>.symm⟩

/-- C7: `_process_file_for_api` checks existence first (a missing file
fails with the 404 FileNotFound exception regardless of anything else),
then MIME determinability/supportedness (failing with the 415
UnsupportedMedia exception); and when such an exception propagates out of
`process_user_message`, `handle_incoming_message` sends the single generic
apology and completes without raising (producing a trace with no assistant
persist and no reply send). -/
theorem claim_C7_attachment_error_flow (fs : FileSystem) (ga : GenAIClient)
    (path : String) (env : ServiceEnv) (s : ChatHistories)
    (m : IncomingMessageData) (e e' : ApiError) :
    (fs.pathExists path = false →
      process_file_for_api fs ga path =
        .error (.httpException 404 ("File not found: " ++ fs.basename path))) ∧
    (fs.pathExists path = true →
      get_supported_mime_type fs path = .error e →
      (process_file_for_api fs ga path = .error e ∧
       ∃ d, e = .httpException 415 d)) ∧
    (m.is_mine = false → (m.sender_phone == "") = false →
      (process_user_message env.llm s m.sender_phone
        ⟨m.body, m.local_file_path⟩).result = .error e' →
      (handle_incoming_message env s m).effects =
        [ .save_message m.sender_phone "user" (some m.id) m.type m.body
            m.local_file_path m.timestamp,
          .llm_call m.sender_phone,
          .send_text m.sender_phone "Sorry, I encountered an internal error." ]) := by
  refine ⟨?_, ?_, ?_⟩
  · intro hne
    unfold process_file_for_api
    rw [hne]
    simp
  · intro hex hm
    constructor
    · unfold process_file_for_api
      rw [hex, hm]
      simp
    · exact get_supported_mime_type_error_415 fs path e hm
  · intro hmine hphone hres
    unfold handle_incoming_message
    rw [hmine]
    simp only [Bool.false_eq_true, if_false]
    simp only [hres, hphone]
    simp

/-! ## Claim C2: when is the session history appended? -/

/-- Whether both `response.text` and `response.candidates[0].content` can be
extracted without raising. -/
def extractionOk (response : ModelResponse) : Bool :=
  (match response.text_attr with | .ok _ => true | .error _ => false) &&
  (match response.candidate_content with | .ok _ => true | .error _ => false)

/-- `finalize_text_response` returns the cache it was given. -/
theorem finalize_text_response_state (s2 : ChatHistories)
    (ai_response_text : Option String) :
    (finalize_text_response s2 ai_response_text).state = s2 := by
  cases ai_response_text with
  | none => rfl
  | some t =>
    by_cases h : (pyStrip t == "") = true
    · simp [finalize_text_response, h]
    · simp [finalize_text_response, h]

/-- `exception_fallback` leaves the cache as it was. -/
theorem exception_fallback_state (st : ChatHistories)
    (response : ModelResponse) :
    (exception_fallback st response).state = st := by
  cases hb : response.block_reason with
  | none =>
    by_cases h : (!response.has_candidates) = true
    · simp [exception_fallback, hb, h]
    · simp [exception_fallback, hb, h]
  | some r =>
    by_cases h : (!(r == "")) = true
    · simp [exception_fallback, hb, h]
    · simp [exception_fallback, hb, h]

/-- `exception_fallback` never reports `Success`. -/
theorem exception_fallback_not_success (st : ChatHistories)
    (response : ModelResponse) (t : String) :
    (exception_fallback st response).outcome ≠ ModelOutcome.Success t := by
  cases hb : response.block_reason with
  | none =>
    by_cases h : (!response.has_candidates) = true
    · simp [exception_fallback, hb, h]
    · simp [exception_fallback, hb, h]
  | some r =>
    by_cases h : (!(r == "")) = true
    · simp [exception_fallback, hb, h]
    · simp [exception_fallback, hb, h]

/-- C2 (amended): in a run of `process_user_message` that reaches the model
call, the session history for the identifier is appended to (new user turn
plus model turn) if and only if both `response.text` and
`response.candidates[0].content` extract without raising — in particular on
every `Success`, but also in the `EmptyOrMalformed` case where the
extracted text is merely blank; only the exception cases (safety block,
missing candidates, malformed response) leave the cache unchanged. -/
theorem claim_C2_append_iff_extraction (env : LLMEnv) (s : ChatHistories)
    (sender_phone : String) (input_data : InputData)
    (response : ModelResponse) (fps : List GenPart)
    (hguard : (truthy input_data.text_content
      || truthy input_data.local_file_path) = true)
    (hfps : file_parts_stage env input_data = .ok fps)
    (hgen : env.generate
      ((get_or_create_chat_history env s sender_phone).history ++
        [⟨"user", fps ++ text_parts input_data⟩]) = .ok response) :
    (∀ t c, response.text_attr = .ok t → response.candidate_content = .ok c →
      lookupHist (process_user_message env s sender_phone input_data).state
          sender_phone =
        some ((get_or_create_chat_history env s sender_phone).history ++
          [⟨"user", fps ++ text_parts input_data⟩, c])) ∧
    (extractionOk response = false →
      (process_user_message env s sender_phone input_data).state =
        (get_or_create_chat_history env s sender_phone).state) ∧
    (∀ t, (process_user_message env s sender_phone input_data).outcome =
        ModelOutcome.Success t → extractionOk response = true) := by
  have hguard' : (!truthy input_data.text_content
      && !truthy input_data.local_file_path) = false := by
    cases h1 : truthy input_data.text_content <;>
      cases h2 : truthy input_data.local_file_path <;> simp_all
  have hne : ((fps ++ text_parts input_data).isEmpty) = false := by
    cases h1 : truthy input_data.text_content with
    | true =>
      unfold text_parts
      rw [h1]
      simp
    | false =>
      have h2 : truthy input_data.local_file_path = true := by
        rw [h1] at hguard
        simpa using hguard
      unfold file_parts_stage at hfps
      rw [h2] at hfps
      simp only [if_true] at hfps
      cases hp : process_file_for_api env.fs env.ga
          (input_data.local_file_path.getD "") with
      | ok p =>
        rw [hp] at hfps
        simp only [Except.ok.injEq] at hfps
        rw [← hfps]
        simp
      | error e =>
        rw [hp] at hfps
        simp at hfps
  have hbody : process_user_message env s sender_phone input_data =
      (match response.text_attr, response.candidate_content with
        | .ok ai_response_text, .ok model_response_content =>
          finalize_text_response
            (setHist (get_or_create_chat_history env s sender_phone).state
              sender_phone
              ((get_or_create_chat_history env s sender_phone).history ++
                [⟨"user", fps ++ text_parts input_data⟩,
                  model_response_content]))
            ai_response_text
        | _, _ =>
          exception_fallback
            (get_or_create_chat_history env s sender_phone).state response) := by
    unfold process_user_message
    simp only [hguard', Bool.false_eq_true, if_false, hfps, hne, hgen]
  refine ⟨?_, ?_, ?_⟩
  · intro t c ht hc
    rw [hbody, ht, hc]
    simp only [finalize_text_response_state]
    rw [lookup_setHist]
  · intro hbad
    rw [hbody]
    cases hta : response.text_attr with
    | ok t =>
      cases hca : response.candidate_content with
      | ok c =>
        exfalso
        unfold extractionOk at hbad
        rw [hta, hca] at hbad
        simp at hbad
      | error u => simp only [exception_fallback_state]
    | error u =>
      cases hca : response.candidate_content with
      | ok c => simp only [exception_fallback_state]
      | error u2 => simp only [exception_fallback_state]
  · intro t hsucc
    rw [hbody] at hsucc
    cases hta : response.text_attr with
    | ok t1 =>
      cases hca : response.candidate_content with
      | ok c =>
        unfold extractionOk
        rw [hta, hca]
        rfl
      | error u =>
        rw [hta, hca] at hsucc
        exact absurd hsucc (exception_fallback_not_success _ _ _)
    | error u =>
      cases hca : response.candidate_content with
      | ok c =>
        rw [hta, hca] at hsucc
        exact absurd hsucc (exception_fallback_not_success _ _ _)
      | error u2 =>
        rw [hta, hca] at hsucc
        exact absurd hsucc (exception_fallback_not_success _ _ _)

/-- A model response whose text extracts successfully but is blank after
stripping, with a well-formed candidate content. -/
def respBlank : ModelResponse :=
  { text_attr := .ok (some "   "), candidate_content := .ok ⟨"model", []⟩,
    block_reason := none, has_candidates := true }

/-- An environment whose model call returns `respBlank`. -/
def envBlank : LLMEnv :=
  { fs := fsW, ga := gaW, db_get_history := fun _ => .ok [],
    generate := fun _ => .ok respBlank }

/-- Counterexample to C2 as stated: with a blank-text response the outcome
is `EmptyOrMalformed`, yet the session history for `p1` (initially the
existing empty entry) has been appended to — the user turn and the model
turn are both in the cache, because the source appends before the blank
check. -/
theorem claim_C2_counterexample :
    (process_user_message envBlank [("p1", [])] "p1"
      ⟨some "hi", none⟩).outcome = ModelOutcome.EmptyOrMalformed ∧
    lookupHist (process_user_message envBlank [("p1", [])] "p1"
      ⟨some "hi", none⟩).state "p1" =
      some [⟨"user", [GenPart.text "hi"]⟩, ⟨"model", []⟩] ∧
    lookupHist [("p1", [])] "p1" = some [] :=
  ⟨rfl, rfl, rfl⟩

/-- Witness for the amended C2 at `envBlank`: both extractions succeed, so
the two turns are appended even though the outcome is not `Success`. -/
theorem claim_C2_witness :
    (truthy (some "hi") || truthy (none : Option String)) = true ∧
    file_parts_stage envBlank ⟨some "hi", none⟩ = .ok [] ∧
    envBlank.generate
      ((get_or_create_chat_history envBlank [("p1", [])] "p1").history ++
        [⟨"user", [] ++ text_parts ⟨some "hi", none⟩⟩]) = .ok respBlank ∧
    lookupHist (process_user_message envBlank [("p1", [])] "p1"
        ⟨some "hi", none⟩).state "p1" =
      some ((get_or_create_chat_history envBlank [("p1", [])] "p1").history ++
        [⟨"user", [] ++ text_parts ⟨some "hi", none⟩⟩, ⟨"model", []⟩]) :=
  ⟨rfl, rfl, rfl,
   (claim_C2_append_iff_extraction envBlank [("p1", [])] "p1" ⟨some "hi", none⟩
      respBlank [] rfl rfl rfl).1 (some "   ") ⟨"model", []⟩ rfl rfl⟩

/-! ## Claim C1: are blocked/empty outcomes really dropped? -/

/-- A model response carrying a safety block: both extractions raise and
the feedback chain carries the truthy block reason `SAFETY`. -/
def respSafety : ModelResponse :=
  { text_attr := .error (), candidate_content := .error (),
    block_reason := some "SAFETY", has_candidates := true }

/-- An environment whose model call returns `respSafety`. -/
def envSafety : LLMEnv :=
  { fs := fsW, ga := gaW, db_get_history := fun _ => .ok [],
    generate := fun _ => .ok respSafety }

/-- A concrete non-self-sent inbound text message. -/
def msgUser : IncomingMessageData :=
  { id := "m1", type := "text", sender_phone := "p1", body := some "hi",
    timestamp := 5, is_mine := false, media_type := none,
    local_file_path := none }

/-- C1 evaluated at the failing input: the model invocation's outcome is
`SafetyBlocked "SAFETY"`, yet `handle_incoming_message` persists an
outbound assistant turn and invokes the outbound sender with the client's
safety message — the service's sentinel
`"I cannot respond to that prompt due to safety guidelines."` matches none
of the strings the client actually returns, so the intended silent drop
never happens. -/
theorem claim_C1_safety_blocked_is_sent :
    (process_user_message envSafety [("p1", [])] "p1"
      ⟨some "hi", none⟩).outcome = ModelOutcome.SafetyBlocked "SAFETY" ∧
    (handle_incoming_message ⟨envSafety, 111⟩ [("p1", [])] msgUser).effects =
      [ Effect.save_message "p1" "user" (some "m1") "text" (some "hi") none 5,
        Effect.llm_call "p1",
        Effect.save_message "p1" "assistant" none "text"
          (some ("My response was blocked due to safety reasons (SAFETY)."
            ++ " Please modify your prompt or file.")) none 111,
        Effect.send_text "p1"
          ("My response was blocked due to safety reasons (SAFETY)."
            ++ " Please modify your prompt or file.") ] := by
  constructor
  · rfl
  · decide

/-- A filesystem holding an existing 10-byte file whose extension is
unrecognized: the MIME guess fails and the `.heic`/`.heif` fallbacks do not
apply. -/
def fs10 : FileSystem :=
  { pathExists := fun _ => true,
    guess_type := fun _ => none,
    splitext_lower := fun _ => ".xyz",
    getsize := fun _ => 10,
    basename := fun p => p,
    read_bytes := fun _ => .ok [1, 2, 3, 4, 5, 6, 7, 8, 9, 10] }

/-- The service environment for the C7 witness. -/
def envC7 : ServiceEnv :=
  { llm := { fs := fs10, ga := gaW, db_get_history := fun _ => .ok [],
             generate := fun _ => .error () },
    now := 200 }

/-- The C7 witness inbound message: a media message whose downloaded local
file is `f.xyz`. -/
def msgFile : IncomingMessageData :=
  { id := "m2", type := "document", sender_phone := "p1", body := none,
    timestamp := 7, is_mine := false, media_type := some "application/octet-stream",
    local_file_path := some "f.xyz" }

/-- The 415 UnsupportedMedia exception raised for `f.xyz`. -/
def e415 : ApiError :=
  .httpException 415 "Could not determine MIME type for file: f.xyz"

/-- Witness for C7 at the spec scenario: the existing 10-byte file with an
unrecognized extension fails with the 415 exception, and the dispatch run
ends with the generic apology and nothing else. -/
theorem claim_C7_witness :
    fs10.pathExists "f.xyz" = true ∧
    get_supported_mime_type fs10 "f.xyz" = .error e415 ∧
    (process_file_for_api fs10 gaW "f.xyz" = .error e415 ∧
      ∃ d, e415 = .httpException 415 d) ∧
    msgFile.is_mine = false ∧
    (msgFile.sender_phone == "") = false ∧
    (process_user_message envC7.llm [] msgFile.sender_phone
      ⟨msgFile.body, msgFile.local_file_path⟩).result = .error e415 ∧
    (handle_incoming_message envC7 [] msgFile).effects =
      [ .save_message "p1" "user" (some "m2") "document" none (some "f.xyz") 7,
        .llm_call "p1",
        .send_text "p1" "Sorry, I encountered an internal error." ] :=
  ⟨rfl, rfl,
   (claim_C7_attachment_error_flow fs10 gaW "f.xyz" envC7 [] msgFile
      e415 e415).2.1 rfl rfl,
   rfl, rfl, rfl,
   (claim_C7_attachment_error_flow fs10 gaW "f.xyz" envC7 [] msgFile
      e415 e415).2.2 rfl rfl rfl⟩

end App
